import Mathlib

/-!
Shallow embedding of the HapiMicroService core (src/context.js: `Context`,
`Logger`; src/microservice.js: `MicroService.replyHandler`,
`MicroService.handleContext`, `methodOutput`).

JavaScript values are modelled with explicit options: a JS value that may be
`undefined`/`null` becomes `Option _`; JS truthiness of strings and numbers is
made explicit (`""` and `0` are falsy).  Runtime exceptions (TypeError,
ReferenceError, exceptions from `JSON.stringify`) are modelled with `Except`.
-/

/-- JS runtime exceptions that the modelled code can raise. -/
inductive JsError : Type where
  | typeError (msg : String)
  | referenceError (name : String)
  | thrown (msg : String)
deriving DecidableEq, Repr

/-- Header maps, modelled as association lists with JS-object update semantics:
assignment replaces any previous binding of the key. -/
abbrev Headers := List (String × String)

/-- Reading `obj[k]`: the most recent binding, `none` when absent. -/
def getHeader (h : Headers) (k : String) : Option String :=
  (h.find? (fun p => p.1 = k)).map (fun p => p.2)

/-- Writing `obj[k] = v`. -/
def setHeader (h : Headers) (k v : String) : Headers :=
  (k, v) :: h.filter (fun p => p.1 ≠ k)

/-- JS truthiness of a possibly-absent string (`undefined`, `null` and `""` are
falsy). -/
def truthyStr : Option String → Bool
  | none => false
  | some s => s ≠ ""

/-- JS truthiness of a possibly-absent number (`undefined`, `null` and `0` are
falsy). -/
def truthyInt : Option Int → Bool
  | none => false
  | some n => n ≠ 0

/-- JS `a || b` on possibly-absent numbers. -/
def jsOrInt (a b : Option Int) : Option Int :=
  if truthyInt a then a else b

/-- JS `a || b` where `a` is a possibly-absent string and `b` a string
(`ex.stack || ex.toString()`). -/
def jsOrStr (a : Option String) (b : String) : String :=
  match a with
  | some s => if s ≠ "" then s else b
  | none => b

/-- An error-like JS object as consumed by `Logger.serializeError` and
`Logger.getFullErrorStack` (src/context.js).  `causeFn = true` models
`ex.cause` being a function (the `typeof ex.cause === 'function'` check);
`causeVal` is what that function returns, `none` when the returned value is
falsy. -/
inductive ErrObj : Type where
  | mk (stack : Option String) (toStr : String)
       (message name : Option String)
       (code signal : Option Int) (data : Option String)
       (causeFn : Bool) (causeVal : Option ErrObj)

def ErrObj.stack : ErrObj → Option String
  | .mk s _ _ _ _ _ _ _ _ => s

def ErrObj.toStr : ErrObj → String
  | .mk _ t _ _ _ _ _ _ _ => t

def ErrObj.message : ErrObj → Option String
  | .mk _ _ m _ _ _ _ _ _ => m

def ErrObj.name : ErrObj → Option String
  | .mk _ _ _ n _ _ _ _ _ => n

def ErrObj.code : ErrObj → Option Int
  | .mk _ _ _ _ c _ _ _ _ => c

def ErrObj.signal : ErrObj → Option Int
  | .mk _ _ _ _ _ sg _ _ _ => sg

def ErrObj.data : ErrObj → Option String
  | .mk _ _ _ _ _ _ d _ _ => d

def ErrObj.causeFn : ErrObj → Bool
  | .mk _ _ _ _ _ _ _ cf _ => cf

def ErrObj.causeVal : ErrObj → Option ErrObj
  | .mk _ _ _ _ _ _ _ _ cv => cv

namespace Logger

/-- Embedding of `Logger.getFullErrorStack` (src/context.js lines 267-276):
`ret = ex.stack || ex.toString()`, and when `ex.cause` is a function whose
result is truthy, append `"\nCaused by: "` and recurse. -/
def getFullErrorStack : ErrObj → String
  | .mk stack toStr _ _ _ _ _ causeFn causeVal =>
    let ret := jsOrStr stack toStr
    match causeFn, causeVal with
    | true, some cex => ret ++ "\nCaused by: " ++ getFullErrorStack cex
    | true, none => ret
    | false, _ => ret

end Logger

/-- The flat record produced by `Logger.serializeError` for stack-carrying
inputs.  `stack` is an `Option` because `logOutgoingResponse` may later delete
the field. -/
structure ErrRecord : Type where
  message : Option String
  name : Option String
  stack : Option String
  code : Option Int
  signal : Option Int
  data : Option String
deriving DecidableEq, Repr

/-- Result of `Logger.serializeError`: either the input passed through
unchanged (`raw`, covering falsy and stack-less inputs) or the serialized
record. -/
inductive SerOut : Type where
  | raw (v : Option ErrObj)
  | record (r : ErrRecord)

namespace Logger

/-- Embedding of `Logger.serializeError` (src/context.js lines 248-260):
`if (!err || !err.stack) return err;` else build the record, with `stack`
computed by `getFullErrorStack`. -/
def serializeError (err : Option ErrObj) : SerOut :=
  match err with
  | none => .raw none
  | some e =>
    if truthyStr e.stack then
      .record { message := e.message, name := e.name,
                stack := some (getFullErrorStack e),
                code := e.code, signal := e.signal, data := e.data }
    else
      .raw (some e)

end Logger

/-- Reading `.stack` off a `serializeError` result (the JS read
`data.error.stack`): a record exposes its `stack` field, a raw error object its
own `stack` property, and a raw falsy value has no properties. -/
def serStack : SerOut → Option String
  | .record r => r.stack
  | .raw (some e) => e.stack
  | .raw none => none

/-- Removing the `stack` property from an `ErrObj` (effect of JS
`delete obj.stack` on a raw error object). -/
def ErrObj.delStack : ErrObj → ErrObj
  | .mk _ t m n c sg d cf cv => .mk none t m n c sg d cf cv

/-- Effect of `delete data.error.stack` on a `serializeError` result. -/
def delStack : SerOut → SerOut
  | .record r => .record { r with stack := none }
  | .raw (some e) => .raw (some e.delStack)
  | .raw none => .raw none

/-- Embedding of lines 153-155 of src/context.js:
`if (data.error.stack) { delete data.error.stack; }`. -/
def delStackIfTruthy (s : SerOut) : SerOut :=
  if truthyStr (serStack s) then delStack s else s

/-- A parent logging handle; `hasChild` models the lodash check
`_.isFunction(log.child)` (whether the handle exposes a child-scoping
function). -/
structure LogHandle : Type where
  hasChild : Bool
deriving DecidableEq, Repr

/-- A derived child logging handle, recording the `request_id` value it was
tagged with (the argument of `log.child({request_id: id})`). -/
structure ChildLog : Type where
  request_id : Option String
deriving DecidableEq, Repr

/-- Per-request context object (src/context.js).  `log` is present exactly
when a parent handle exposing a child function was supplied. -/
structure Context : Type where
  id : String
  start : Nat
  log : Option ChildLog
deriving DecidableEq, Repr

namespace Context

/-- Embedding of the `Context` constructor (src/context.js lines 13-22).
`uuid` is the fresh value `uuid.v4()` would return and `now` the value of
`Date.now()`; both are passed in explicitly.  The child handle is tagged with
the raw `id` argument: the source reads `log.child({request_id: id})`, not
`this.id`. -/
def new (id : Option String) (start : Option Nat) (log : Option LogHandle)
    (uuid : String) (now : Nat) : Context :=
  { id := jsOrStr id uuid,
    start := match start with
             | some n => if n ≠ 0 then n else now
             | none => now,
    log := match log with
           | some lh => if lh.hasChild then some { request_id := id } else none
           | none => none }

/-- Embedding of `Context.dt` (src/context.js lines 28-30):
`Date.now() - this.start`. -/
def dt (c : Context) (now : Nat) : Int := (now : Int) - (c.start : Int)

end Context

/-- Timer state of one request context: `handle` is the `context.timer` field,
`pending` whether the scheduled callback is still going to run, `emitted` how
many "is unresponsive" records have been logged for this request. -/
structure TimerState : Type where
  handle : Option Nat
  pending : Bool
  emitted : Nat
deriving DecidableEq, Repr

/-- Embedding of `context.timer = setTimeout(...)` in
`Logger.logIncomingRequest` (src/context.js lines 94-96): store the handle and
schedule the unresponsiveness callback. -/
def armTimer (s : TimerState) (h : Nat) : TimerState :=
  { handle := some h, pending := true, emitted := s.emitted }

/-- Embedding of src/context.js lines 107-110:
`if (context.timer) { clearTimeout(context.timer); delete context.timer; }` —
a guarded cancel that does nothing when no handle is stored (`clearTimeout` on
a missing handle is never reached, so no branch can throw). -/
def clearTimerIfPresent (s : TimerState) : TimerState :=
  match s.handle with
  | some _ => { handle := none, pending := false, emitted := s.emitted }
  | none => s

/-- The `unresponsiveTimeout` deadline elapsing: a still-pending one-shot
callback runs exactly once and emits the "is unresponsive" error record; a
cancelled or already-run callback does nothing. -/
def timerFire (s : TimerState) : TimerState :=
  if s.pending then { s with pending := false, emitted := s.emitted + 1 } else s

/-- The `output` part of a Boom error wrapper. -/
structure BoomOutput : Type where
  headers : Headers
  statusCode : Int
deriving DecidableEq, Repr

/-- The `source` payload of a non-Boom response: `success` is `some b` when the
payload carries a boolean `success` field; `err` collects the error-relevant
properties of the same object, as read by `serializeError`. -/
structure SourceObj : Type where
  success : Option Bool
  err : ErrObj

/-- A Hapi response as discriminated by `logOutgoingResponse`: a Boom error
wrapper (`isBoom` truthy) carrying the error object it is, its `isServer` flag
and its `output`; or a plain response with headers, status code and an optional
`source` payload. -/
inductive HapiResponse : Type where
  | boom (asErr : ErrObj) (isServer : Bool) (output : BoomOutput)
  | plain (headers : Headers) (statusCode : Int) (source : Option SourceObj)

/-- The fields of a Hapi request object read by `logOutgoingResponse`. -/
structure Request : Type where
  method : String
  path : String
  query : String
  url : String
  headers : Headers
  params : String
  state : String
  context : Option Context
  response : HapiResponse

/-- Bunyan log levels used by the logger. -/
inductive LogLevel : Type where
  | trace
  | info
  | warn
  | error
deriving DecidableEq, Repr

/-- Request-side fields of the outgoing record; headers, params and state are
only copied in when trace-level logging is enabled
(`this.log.level() < 30`). -/
structure OutReqData : Type where
  method : String
  path : String
  query : String
  url : String
  time : Nat
  remote : Option String
  headers : Option Headers
  params : Option String
  state : Option String
deriving DecidableEq, Repr

/-- The outgoing log record assembled by `logOutgoingResponse`, with the
level it is emitted at and its message line. -/
structure OutRecord : Type where
  level : LogLevel
  message : String
  request : OutReqData
  responseTime : Nat
  responseHeaders : Headers
  responseStatusCode : Int
  duration : Int
  lag : Int
  error : Option SerOut

/-- Result of running `logOutgoingResponse`: the emitted record, the context
that was used (retrieved from the request, or created defensively) and the
timer state after the guarded clear. -/
structure LogOut : Type where
  record : OutRecord
  context : Context
  timerAfter : TimerState

namespace Logger

/-- Embedding of `Logger.logOutgoingResponse` (src/context.js lines 103-177).
Environment inputs are passed explicitly: `selfLog` is the logger-owned bunyan
handle `this.log`, `levelNum` its numeric level (`this.log.level()`),
`lagFixed` the sampled event-loop lag, `uuid` the value `uuid.v4()` would
return should a defensive context have to be created, and `now` the value of
`Date.now()`. -/
def logOutgoingResponse (req : Request) (timer : TimerState)
    (selfLog : LogHandle) (levelNum : Int) (lagFixed : Int)
    (uuid : String) (now : Nat) : LogOut :=
  let context := match req.context with
    | some c => c
    | none =>
      Context.new (getHeader req.headers "x-request-id") none (some selfLog) uuid now
  let timerAfter := clearTimerIfPresent timer
  let reqData : OutReqData :=
    { method := req.method, path := req.path, query := req.query,
      url := req.url, time := context.start,
      remote := if truthyStr (getHeader req.headers "x-forwarded-for")
                then getHeader req.headers "x-forwarded-for" else none,
      headers := if levelNum < 30 then some req.headers else none,
      params := if levelNum < 30 then some req.params else none,
      state := if levelNum < 30 then some req.state else none }
  let msg0 := req.method ++ " " ++ req.path ++ " "
  match req.response with
  | .boom e isServer output =>
    let hs := setHeader output.headers "x-request-id" context.id
    let status := output.statusCode
    let err0 := Logger.serializeError (some e)
    let message := msg0 ++ toString status ++ " (" ++ toString (context.dt now) ++ "ms)"
    if isServer then
      { record := { level := .error, message := message, request := reqData,
                    responseTime := now, responseHeaders := hs,
                    responseStatusCode := status, duration := context.dt now,
                    lag := lagFixed, error := some err0 },
        context := context, timerAfter := timerAfter }
    else
      { record := { level := .warn, message := message, request := reqData,
                    responseTime := now, responseHeaders := hs,
                    responseStatusCode := status, duration := context.dt now,
                    lag := lagFixed, error := some (delStackIfTruthy err0) },
        context := context, timerAfter := timerAfter }
  | .plain hs0 status source =>
    let hs := setHeader hs0 "x-request-id" context.id
    let message := msg0 ++ toString status ++ " (" ++ toString (context.dt now) ++ "ms)"
    match source with
    | some src =>
      if src.success = some false then
        { record := { level := .error, message := message, request := reqData,
                      responseTime := now, responseHeaders := hs,
                      responseStatusCode := status, duration := context.dt now,
                      lag := lagFixed,
                      error := some (Logger.serializeError (some src.err)) },
          context := context, timerAfter := timerAfter }
      else
        { record := { level := .info, message := message, request := reqData,
                      responseTime := now, responseHeaders := hs,
                      responseStatusCode := status, duration := context.dt now,
                      lag := lagFixed, error := none },
          context := context, timerAfter := timerAfter }
    | none =>
      { record := { level := .info, message := message, request := reqData,
                    responseTime := now, responseHeaders := hs,
                    responseStatusCode := status, duration := context.dt now,
                    lag := lagFixed, error := none },
        context := context, timerAfter := timerAfter }

end Logger

/-- The fields of the `err` argument that `MicroService.replyHandler` reads. -/
structure ErrArg : Type where
  code : Option Int
  statusCode : Option Int
  headers : Option Headers
deriving DecidableEq, Repr

/-- A value `replyHandler` can return: a Boom wrapper built from `err` (with
the derived status code and the merged `err.headers` on its output), or
`Boom.notFound()`. -/
inductive ReplyResult : Type where
  | boomWrap (statusCode : Int) (headers : Headers)
  | notFound
deriving DecidableEq, Repr

namespace MicroService

/-- Embedding of `MicroService.replyHandler` (src/microservice.js lines
131-170).  The success branch (null `err`, truthy `data`) evaluates the
undeclared identifier `responseType` in the call `methodOutput(data,
responseType)` at line 159, which raises a ReferenceError before any response
is built; `data` is abstracted to its truthiness, the only aspect the
reachable code reads. -/
def replyHandler (err : Option ErrArg) (dataTruthy : Bool)
    (cacheControl : Option String) : Except JsError ReplyResult :=
  match err with
  | some e =>
    let code := jsOrInt e.code e.statusCode
    let statusCode : Int :=
      match code with
      | some c =>
        if c ≠ 0 then
          if 400 ≤ c ∧ c < 500 then c
          else if 500 ≤ c ∧ c < 600 then 503
          else 404
        else 404
      | none => 404
    .ok (.boomWrap statusCode (match e.headers with | some hs => hs | none => []))
  | none =>
    if dataTruthy then
      let _ := cacheControl
      .error (.referenceError "responseType")
    else .ok .notFound

end MicroService

/-- Result object of `methodOutput`: the original `result` value and the md5
hex digest of its JSON serialization (absent when `JSON.stringify` returned
`undefined`, as `typeof data === 'string'` then fails). -/
structure MethodOut (α : Type) : Type where
  data : α
  hash : Option String
deriving DecidableEq, Repr

/-- Embedding of `methodOutput` (src/microservice.js lines 206-229).  The JS
runtime primitives are passed in: `stringify` models `JSON.stringify`, which
may throw (circular data) or return `undefined`; `md5hex` models the md5 hex
digest of a string.  Both `try {...} catch(err) { throw err; }` blocks
re-raise, so a serialization failure propagates unchanged and the returned
object carries the original `result` together with the hash. -/
def methodOutput {α : Type} (stringify : α → Except JsError (Option String))
    (md5hex : String → String) (result : α) : Except JsError (MethodOut α) :=
  match stringify result with
  | .error e => .error e
  | .ok os => .ok { data := result, hash := os.map md5hex }

/-- The part of a request that `handleContext` reads: its headers object,
which may be absent altogether (as it is on the defaulted `{}` argument). -/
structure ReqLite : Type where
  headers : Option Headers
deriving DecidableEq, Repr

namespace MicroService

/-- Embedding of `MicroService.handleContext` (src/microservice.js lines
194-198).  `request` defaults to `{}`, a request with no `headers` object;
reading `request.headers['x-request-id']` off the missing headers object
raises a TypeError, and a falsy header value reaches `Context().id`, which
raises a TypeError because the ES6 class constructor `Context` is invoked
without `new`. -/
def handleContext (request : Option ReqLite) : Except JsError Headers :=
  let r := match request with | some q => q | none => { headers := none }
  match r.headers with
  | none =>
    .error (.typeError "Cannot read properties of undefined (reading x-request-id)")
  | some hs =>
    match getHeader hs "x-request-id" with
    | some v =>
      if v ≠ "" then .ok [("x-request-id", v)]
      else .error (.typeError "Class constructor Context cannot be invoked without new")
    | none =>
      .error (.typeError "Class constructor Context cannot be invoked without new")

end MicroService

/-- Whether an `Except` result is a raised TypeError. -/
def isTypeError {α : Type} : Except JsError α → Bool
  | .error (.typeError _) => true
  | _ => false

/-- Overwrite the cause accessor of an error object: `e.setCause (some c)`
gives `e` a function-valued cause returning `c`; `e.setCause none` removes
any cause. -/
def ErrObj.setCause : ErrObj → Option ErrObj → ErrObj
  | .mk s t m n c sg d _ _, co => .mk s t m n c sg d co.isSome co

/-- Build a causal chain: `chainFrom e [c1, c2, c3]` is `e` with cause `c1`,
whose cause is `c2`, whose cause is `c3`, which has no further cause. -/
def chainFrom : ErrObj → List ErrObj → ErrObj
  | e, [] => e.setCause none
  | e, c :: cs => e.setCause (some (chainFrom c cs))

/-- Modelled from the spec wording of claim C1: the status code the claim
prescribes for an error argument — the numeric code taken from `err.code` or
`err.statusCode` when it lies in 400-499, 503 when it lies in 500-599, and 404
in every other case. -/
def claimStatusOf (e : ErrArg) : Int :=
  match jsOrInt e.code e.statusCode with
  | some c =>
    if 400 ≤ c ∧ c < 500 then c
    else if 500 ≤ c ∧ c < 600 then 503
    else 404
  | none => 404

/-- Modelled from the spec wording of claim C6: the message line
`"<METHOD> <PATH> <STATUS> (<ELAPSED>ms)"`. -/
def claimMessage (method path : String) (status elapsed : Int) : String :=
  method ++ " " ++ path ++ " " ++ toString status ++ " (" ++ toString elapsed ++ "ms)"

/-- Modelled from the spec wording of claim C4: a list of stack texts joined
by the `"\nCaused by: "` marker, in chain order. -/
def joinedStacks : List String → String
  | [] => ""
  | [s] => s
  | s :: rest => s ++ "\nCaused by: " ++ joinedStacks rest

/-- An error object whose stack text is `s`, with no cause and no other
properties; used to build concrete cause chains. -/
def errWithStack (s : String) : ErrObj :=
  .mk (some s) s none none none none none false none

/-- The status code the outgoing record reports for a response: the Boom
output status for error wrappers, the plain status otherwise. -/
def responseStatusOf : HapiResponse → Int
  | .boom _ _ output => output.statusCode
  | .plain _ status _ => status

/-- Modelled from the spec wording of claim C6: the log level prescribed for a
response — error for server Boom wrappers, warning for client Boom wrappers,
error for a source reporting `success === false`, info otherwise. -/
def claimLevelOf : HapiResponse → LogLevel
  | .boom _ isServer _ => if isServer then .error else .warn
  | .plain _ _ source =>
    match source with
    | some src => if src.success = some false then .error else .info
    | none => .info

/-- Modelled from the spec wording of claim C6: the error field prescribed for
a response — the full serialized error for server Boom wrappers, the
serialized error with its stack removed for client Boom wrappers, the
serialized source for a reported business failure, and nothing otherwise. -/
def claimErrorOf : HapiResponse → Option SerOut
  | .boom e isServer _ =>
    some (if isServer then Logger.serializeError (some e)
          else delStackIfTruthy (Logger.serializeError (some e)))
  | .plain _ _ source =>
    match source with
    | some src =>
      if src.success = some false then some (Logger.serializeError (some src.err))
      else none
    | none => none

/-- The `x-request-id` header value a request supplies to `handleContext`:
present only when the request has a headers object carrying the entry. -/
def requestIdHeaderOf (request : Option ReqLite) : Option String :=
  match request with
  | some { headers := some hs } => getHeader hs "x-request-id"
  | _ => none

/-- Looking up the key just written by `setHeader` yields the written value. -/
theorem getHeader_setHeader (h : Headers) (k v : String) :
    getHeader (setHeader h k v) k = some v := by
  unfold getHeader setHeader
  rw [List.find?_cons_of_pos _ (by simp)]
  rfl

/-- Building a chain does not change the head stack property. -/
theorem chainFrom_stack (e : ErrObj) (cs : List ErrObj) :
    (chainFrom e cs).stack = e.stack := by
  cases cs <;> rcases e with ⟨s, t, m, n, c, sg, d, cf, cv⟩ <;> rfl

/-- The full stack of a built chain is the join of the stack texts of all its
links, in chain order. -/
theorem getFullErrorStack_chainFrom (e : ErrObj) (cs : List ErrObj) :
    Logger.getFullErrorStack (chainFrom e cs) =
      joinedStacks ((e :: cs).map (fun x => jsOrStr x.stack x.toStr)) := by
  induction cs generalizing e with
  | nil => rcases e with ⟨s, t, m, n, c, sg, d, cf, cv⟩; rfl
  | cons c cs ih =>
    rcases e with ⟨s, t, m, n, co, sg, d, cf, cv⟩
    show jsOrStr s t ++ "\nCaused by: " ++ Logger.getFullErrorStack (chainFrom c cs) = _
    rw [ih]
    rfl

/-- After the guarded stack delete, the error field no longer exposes a truthy
stack. -/
theorem delStackIfTruthy_not_truthy (s : SerOut) :
    truthyStr (serStack (delStackIfTruthy s)) = false := by
  unfold delStackIfTruthy
  by_cases h : truthyStr (serStack s) = true
  · rw [if_pos h]
    rcases s with v | r
    · rcases v with _ | e
      · rfl
      · rcases e with ⟨st, t, m, n, c, sg, d, cf, cv⟩; rfl
    · rfl
  · rw [if_neg (by simpa using h)]
    simpa using h

/-- In every branch, `logOutgoingResponse` leaves the timer in the state
produced by the guarded clear. -/
theorem logOutgoingResponse_timerAfter (req : Request) (timer : TimerState)
    (selfLog : LogHandle) (levelNum lagFixed : Int) (uuid : String) (now : Nat) :
    (Logger.logOutgoingResponse req timer selfLog levelNum lagFixed uuid now).timerAfter =
      clearTimerIfPresent timer := by
  unfold Logger.logOutgoingResponse
  rcases req with ⟨method, path, query, url, headers, params, state, context, response⟩
  rcases response with ⟨e, isServer, output⟩ | ⟨hs0, status, source⟩
  · cases isServer <;> rfl
  · rcases source with _ | src
    · rfl
    · by_cases h : src.success = some false
      · simp only [h, if_true]
      · simp only [if_neg h]

/-- The status computed inside `replyHandler` (with its redundant truthiness
gate on the code) agrees with the status the claim prescribes. -/
theorem replyStatus_eq_claim (e : ErrArg) :
    (match jsOrInt e.code e.statusCode with
     | some c =>
       if c ≠ 0 then
         if 400 ≤ c ∧ c < 500 then c
         else if 500 ≤ c ∧ c < 600 then 503
         else 404
       else (404 : Int)
     | none => (404 : Int)) = claimStatusOf e := by
  unfold claimStatusOf
  rcases hc : jsOrInt e.code e.statusCode with _ | c
  · rfl
  · show (if c ≠ 0 then
        if 400 ≤ c ∧ c < 500 then c
        else if 500 ≤ c ∧ c < 600 then 503
        else 404
      else (404 : Int)) =
      (if 400 ≤ c ∧ c < 500 then c
       else if 500 ≤ c ∧ c < 600 then 503
       else (404 : Int))
    rcases eq_or_ne c 0 with rfl | h0
    · norm_num
    · rw [if_pos h0]

/-- Case split on the three-way status mapping. -/
theorem statusIf_cases (c : Int) :
    (400 ≤ (if 400 ≤ c ∧ c < 500 then c
            else if 500 ≤ c ∧ c < 600 then 503
            else (404 : Int)) ∧
      (if 400 ≤ c ∧ c < 500 then c
       else if 500 ≤ c ∧ c < 600 then 503
       else (404 : Int)) < 500) ∨
    (if 400 ≤ c ∧ c < 500 then c
     else if 500 ≤ c ∧ c < 600 then 503
     else (404 : Int)) = 503 ∨
    (if 400 ≤ c ∧ c < 500 then c
     else if 500 ≤ c ∧ c < 600 then 503
     else (404 : Int)) = 404 := by
  split_ifs with h1 h2
  · left; exact h1
  · right; left; rfl
  · right; right; rfl

/-- Claim C1: for every truthy error argument, `replyHandler` returns a Boom
error wrapper whose status code is the numeric code from `err.code` or
`err.statusCode` when that code lies in 400-499, 503 when it lies in 500-599,
and 404 in every other case; consequently the returned status is never a 5xx
other than the forced 503. -/
theorem MicroService.replyHandler_error_statusCode
    (e : ErrArg) (d : Bool) (cc : Option String) :
    MicroService.replyHandler (some e) d cc =
      .ok (.boomWrap (claimStatusOf e)
        (match e.headers with | some hs => hs | none => [])) ∧
    ((400 ≤ claimStatusOf e ∧ claimStatusOf e < 500) ∨
      claimStatusOf e = 503 ∨ claimStatusOf e = 404) := by
  constructor
  · rw [← replyStatus_eq_claim e]
    rfl
  · unfold claimStatusOf
    rcases hc : jsOrInt e.code e.statusCode with _ | c
    · right; right; rfl
    · exact statusIf_cases c

/-- Claim C2 (failing input): with a null error and truthy data, `replyHandler`
raises `ReferenceError: responseType is not defined` while evaluating the call
`methodOutput(data, responseType)`, instead of building the success
response. -/
theorem MicroService.replyHandler_success_referenceError :
    MicroService.replyHandler none true none =
      .error (.referenceError "responseType") := rfl

/-- Claim C3 (failing input): constructing a `Context` with a falsy `id` and a
child-capable parent log handle generates a fresh UUID for `this.id` but tags
the derived child handle with the raw falsy `id` argument, so the tag is not
the context id. -/
theorem Context.new_child_tag_misses_generated_id :
    (Context.new none none (some { hasChild := true })
        "3f2b6c1e-8a4d-4b7e-9c0a-1d2e3f405162" 1700000000000).id =
      "3f2b6c1e-8a4d-4b7e-9c0a-1d2e3f405162" ∧
    (Context.new none none (some { hasChild := true })
        "3f2b6c1e-8a4d-4b7e-9c0a-1d2e3f405162" 1700000000000).log =
      some { request_id := none } := ⟨rfl, rfl⟩

/-- Claim C4: for an error with a truthy stack, `serializeError` produces a
record whose stack is the stack texts of the whole cause chain joined by the
`"\nCaused by: "` marker, in chain order. -/
theorem Logger.serializeError_stack_chain (e : ErrObj) (cs : List ErrObj)
    (hstk : truthyStr e.stack = true) :
    Logger.serializeError (some (chainFrom e cs)) =
      SerOut.record
        { message := (chainFrom e cs).message, name := (chainFrom e cs).name,
          stack := some (joinedStacks
            ((e :: cs).map (fun x => jsOrStr x.stack x.toStr))),
          code := (chainFrom e cs).code, signal := (chainFrom e cs).signal,
          data := (chainFrom e cs).data } := by
  simp only [Logger.serializeError, chainFrom_stack, hstk, if_true]
  rw [getFullErrorStack_chainFrom]

/-- Witness for claim C4: an error with a chain of three causes serializes to
a record whose stack joins all four stack texts in chain order, innermost
cause last. -/
theorem Logger.serializeError_stack_chain_demo :
    Logger.serializeError (some (chainFrom (errWithStack "stack0")
        [errWithStack "stack1", errWithStack "stack2", errWithStack "stack3"])) =
      SerOut.record
        { message := none, name := none,
          stack :=
            some "stack0\nCaused by: stack1\nCaused by: stack2\nCaused by: stack3",
          code := none, signal := none, data := none } := by
  rw [Logger.serializeError_stack_chain (errWithStack "stack0")
      [errWithStack "stack1", errWithStack "stack2", errWithStack "stack3"]
      (by decide)]
  rfl

/-- Claim C5: inputs that are falsy or lack a stack property pass through
`serializeError` unchanged (identity law), and a serialized record is produced
only for inputs carrying a non-empty stack. -/
theorem Logger.serializeError_identity (v : Option ErrObj) :
    ((v = none ∨ (∃ e, v = some e ∧ e.stack = none)) →
      Logger.serializeError v = .raw v) ∧
    (∀ r, Logger.serializeError v = .record r →
      ∃ e s, v = some e ∧ e.stack = some s ∧ s ≠ "") := by
  constructor
  · rintro (rfl | ⟨e, rfl, hs⟩)
    · rfl
    · have ht : truthyStr e.stack = false := by rw [hs]; rfl
      simp [Logger.serializeError, ht]
  · intro r hr
    rcases v with _ | e
    · simp [Logger.serializeError] at hr
    · rcases hs : e.stack with _ | s
      · have ht : truthyStr e.stack = false := by rw [hs]; rfl
        simp [Logger.serializeError, ht] at hr
      · refine ⟨e, s, rfl, hs, fun hempty => ?_⟩
        have ht : truthyStr e.stack = false := by rw [hs, hempty]; rfl
        simp [Logger.serializeError, ht] at hr

/-- Witness for claim C5: a falsy input passes through unchanged. -/
theorem Logger.serializeError_identity_instance :
    Logger.serializeError none = SerOut.raw none :=
  (Logger.serializeError_identity none).1 (Or.inl rfl)

/-- Claim C6: the outgoing record is logged at error level with the full
serialized error for server Boom wrappers, at warning level with the stack
field stripped for client Boom wrappers, at error level with the serialized
source for a reported business failure, and at info level with no error field
otherwise; the message line is `"<METHOD> <PATH> <STATUS> (<ELAPSED>ms)"` in
every branch, and a stripped error never exposes a truthy stack. -/
theorem Logger.logOutgoingResponse_classification
    (req : Request) (timer : TimerState) (selfLog : LogHandle)
    (levelNum lagFixed : Int) (uuid : String) (now : Nat) :
    (Logger.logOutgoingResponse req timer selfLog levelNum lagFixed
        uuid now).record.message =
      claimMessage req.method req.path (responseStatusOf req.response)
        ((Logger.logOutgoingResponse req timer selfLog levelNum lagFixed
            uuid now).context.dt now) ∧
    (Logger.logOutgoingResponse req timer selfLog levelNum lagFixed
        uuid now).record.level = claimLevelOf req.response ∧
    (Logger.logOutgoingResponse req timer selfLog levelNum lagFixed
        uuid now).record.error = claimErrorOf req.response ∧
    (∀ s, truthyStr (serStack (delStackIfTruthy s)) = false) := by
  refine ⟨?_, ?_, ?_, delStackIfTruthy_not_truthy⟩ <;>
  · rcases req with ⟨method, path, query, url, headers, params, state, context, response⟩
    rcases response with ⟨e, isServer, output⟩ | ⟨hs0, status, source⟩
    · cases isServer <;>
        simp [Logger.logOutgoingResponse, claimMessage, responseStatusOf,
          claimLevelOf, claimErrorOf, Context.dt]
    · rcases source with _ | src
      · simp [Logger.logOutgoingResponse, claimMessage, responseStatusOf,
          claimLevelOf, claimErrorOf, Context.dt]
      · by_cases h : src.success = some false <;>
          simp [Logger.logOutgoingResponse, claimMessage, responseStatusOf,
            claimLevelOf, claimErrorOf, Context.dt, h]

/-- Claim C7: in every classification branch, the outgoing record's response
headers carry an `x-request-id` entry equal to the request context id. -/
theorem Logger.logOutgoingResponse_request_id_header
    (req : Request) (timer : TimerState) (selfLog : LogHandle)
    (levelNum lagFixed : Int) (uuid : String) (now : Nat) :
    getHeader (Logger.logOutgoingResponse req timer selfLog levelNum lagFixed
        uuid now).record.responseHeaders "x-request-id" =
      some (Logger.logOutgoingResponse req timer selfLog levelNum lagFixed
        uuid now).context.id := by
  rcases req with ⟨method, path, query, url, headers, params, state, context, response⟩
  rcases response with ⟨e, isServer, output⟩ | ⟨hs0, status, source⟩
  · cases isServer <;>
      simp [Logger.logOutgoingResponse, getHeader_setHeader]
  · rcases source with _ | src
    · simp [Logger.logOutgoingResponse, getHeader_setHeader]
    · by_cases h : src.success = some false <;>
        simp [Logger.logOutgoingResponse, getHeader_setHeader, h]

/-- Claim C8: responding before the unresponsiveness timer fires clears it so
the "is unresponsive" record is never emitted; an armed timer that elapses
emits exactly once (a second elapse changes nothing); and the guarded clear is
a safe no-op on an absent or already-cleared timer. -/
theorem unresponsiveTimer_lifecycle
    (req : Request) (t s : TimerState) (h : Nat) (selfLog : LogHandle)
    (levelNum lagFixed : Int) (uuid : String) (now : Nat) :
    (timerFire ((Logger.logOutgoingResponse req (armTimer t h) selfLog levelNum
        lagFixed uuid now).timerAfter)).emitted = t.emitted ∧
    (timerFire (armTimer t h)).emitted = t.emitted + 1 ∧
    timerFire (timerFire (armTimer t h)) = timerFire (armTimer t h) ∧
    clearTimerIfPresent (clearTimerIfPresent s) = clearTimerIfPresent s ∧
    (∀ p n, clearTimerIfPresent { handle := none, pending := p, emitted := n } =
      { handle := none, pending := p, emitted := n }) := by
  refine ⟨?_, rfl, rfl, ?_, fun p n => rfl⟩
  · rw [logOutgoingResponse_timerAfter]
    rfl
  · rcases s with ⟨h1, p1, e1⟩
    rcases h1 with _ | h1 <;> rfl

/-- Claim C9: when JSON serialization of the response data throws,
`methodOutput` re-raises that exact failure to its caller and never builds a
success result. -/
theorem methodOutput_propagates_stringify_failure {α : Type}
    (stringify : α → Except JsError (Option String)) (md5hex : String → String)
    (result : α) (e : JsError) (h : stringify result = .error e) :
    methodOutput stringify md5hex result = .error e ∧
    ∀ m, methodOutput stringify md5hex result ≠ .ok m := by
  have hm : methodOutput stringify md5hex result = .error e := by
    unfold methodOutput
    rw [h]
  exact ⟨hm, fun m hOk => by rw [hm] at hOk; exact Except.noConfusion hOk⟩

/-- Witness for claim C9: a serializer that throws (as on circular data) has
its exception re-raised by `methodOutput`. -/
theorem methodOutput_propagates_stringify_failure_witness :
    methodOutput
        (fun _ : Unit =>
          (Except.error (JsError.thrown "Converting circular structure to JSON") :
            Except JsError (Option String)))
        (fun s => s) () =
      Except.error (JsError.thrown "Converting circular structure to JSON") :=
  (methodOutput_propagates_stringify_failure
    (fun _ : Unit =>
      (Except.error (JsError.thrown "Converting circular structure to JSON") :
        Except JsError (Option String)))
    (fun s => s) ()
    (JsError.thrown "Converting circular structure to JSON") rfl).1

/-- Claim C10: `handleContext` returns normally exactly when the request
already carries a truthy `x-request-id` header; with no headers object (as on
the defaulted empty request) or with a missing or falsy header value it raises
a TypeError instead of returning a generated request id. -/
theorem MicroService.handleContext_cases (request : Option ReqLite) :
    (truthyStr (requestIdHeaderOf request) = true →
      ∃ v, requestIdHeaderOf request = some v ∧
        MicroService.handleContext request = .ok [("x-request-id", v)]) ∧
    (truthyStr (requestIdHeaderOf request) = false →
      isTypeError (MicroService.handleContext request) = true) := by
  constructor
  · intro ht
    rcases request with _ | ⟨_ | hs⟩
    · exact absurd ht (by decide)
    · exact absurd ht (by decide)
    · simp only [requestIdHeaderOf] at ht ⊢
      rcases hv : getHeader hs "x-request-id" with _ | v
      · rw [hv] at ht
        exact absurd ht (by decide)
      · rw [hv] at ht
        have hne : v ≠ "" := by simpa [truthyStr] using ht
        exact ⟨v, rfl, by simp [MicroService.handleContext, hv, hne]⟩
  · intro hf
    rcases request with _ | ⟨_ | hs⟩
    · rfl
    · rfl
    · simp only [requestIdHeaderOf] at hf
      rcases hv : getHeader hs "x-request-id" with _ | v
      · simp [MicroService.handleContext, hv, isTypeError]
      · rw [hv] at hf
        have hv0 : v = "" := by simpa [truthyStr] using hf
        subst hv0
        simp [MicroService.handleContext, hv, isTypeError]

/-- Witness for claim C10: the defaulted empty request raises a TypeError,
while a request already carrying a truthy `x-request-id` header returns it. -/
theorem MicroService.handleContext_cases_witness :
    isTypeError (MicroService.handleContext none) = true ∧
    MicroService.handleContext (some ⟨some [("x-request-id", "abc")]⟩) =
      .ok [("x-request-id", "abc")] := by
  constructor
  · exact (MicroService.handleContext_cases none).2 rfl
  · obtain ⟨v, hv, hok⟩ :=
      (MicroService.handleContext_cases
        (some ⟨some [("x-request-id", "abc")]⟩)).1 (by decide)
    have hveq : "abc" = v := Option.some.inj hv
    rw [← hveq] at hok
    exact hok

